import Mathlib

/-!
Shallow embedding of the Claude Code status monitor of the
`workspaces-list` VS Code extension.

The definitions below are translated from the repository's source:

* `claudeCodeMonitor.ts` (the newer revision, the one carrying the
  configurable thresholds, the 24-hour file-age filter, the per-workspace
  startup times and the file-size comparison in the watch handler), and
* `claudeCodeDecorator.ts` (acknowledgement handling).

Modelling conventions:

* timestamps and durations are `Int` milliseconds (JavaScript numbers are
  integral here); file sizes are `Nat`;
* JavaScript `Map`s keyed by strings become `SMap`;
* fallible I/O (`fs.access`, `fs.readdir`, `readConversationFile`, `fs.stat`)
  becomes `Except Unit` values supplied by a `ProjectDir` filesystem model;
  a thrown exception is the `.error` case, caught exactly where the source
  has a `catch`;
* a message's `content` field is modelled as `Option String` holding
  `JSON.stringify(msg.content)`; `none` models an absent (`undefined`)
  content field.  For JSON values that are falsy in JavaScript
  (`null`, `false`, `0`, `""`) the serialization can never contain the
  substring `tool_use`, so a truthiness test on the content is modelled by
  `Option.isSome` without changing any observable behaviour here.
-/

/- ### String helpers (kernel-computable replacements for core String ops) -/

/-- Substring search on character lists: `containsSub hay pat` is true iff
`pat` occurs contiguously inside `hay`.  Models JavaScript
`String.prototype.includes`. -/
def containsSub (hay pat : List Char) : Bool :=
  match hay with
  | [] => pat.isEmpty
  | _ :: t => pat.isPrefixOf hay || containsSub t pat

/-- Lower-casing of a string, modelling `String.prototype.toLowerCase`
(restricted to the ASCII case mapping of `Char.toLower`). -/
def lowerStr (s : String) : String := String.mk (s.data.map Char.toLower)

/-- Models `content.includes("tool_use")` applied to the already-lowercased
serialized message content: the tool-invocation marker heuristic used by
`checkForWaitingInput` and `checkForRecentlyFinished`. -/
def contentHasToolUse (c : String) : Bool :=
  containsSub (lowerStr c).data "tool_use".data

/- ### Data model (`types.ts` and the interfaces of `claudeCodeMonitor.ts`) -/

/-- The `ClaudeCodeStatus` enum of `types.ts`. -/
inductive ClaudeCodeStatus where
  | NoSession
  | NotRunning
  | Running
  | Executing
  | WaitingForInput
  | RecentlyFinished
deriving DecidableEq

/-- The `ClaudeMessage` interface: the last message extracted from a session
log.  `content` holds the serialized (`JSON.stringify`) message content,
`none` when the content field is absent. -/
structure ClaudeMessage where
  role : String
  content : Option String
  cwd : Option String
deriving DecidableEq

/-- The `ConversationMetadata` interface: the bounded summary the log reader
produces for one session file. -/
structure ConversationMetadata where
  workingDirectory : String
  lastModified : Int
  messageCount : Nat
  lastMessage : Option ClaudeMessage
deriving DecidableEq

/-- The `ClaudeCodeStatusInfo` interface of `types.ts`.  In the source the
`lastMessageTime` and `conversationCount` fields are optional; the branches
of `getStatus` that omit `lastMessageTime` are modelled by `none`, and
`conversationCount` is always set by `getStatus`, so it is a plain `Nat`. -/
structure ClaudeCodeStatusInfo where
  status : ClaudeCodeStatus
  lastMessageTime : Option Int
  conversationCount : Nat
deriving DecidableEq

/-- The `ClaudeProcess` interface of the process registry. -/
structure ClaudeProcess where
  pid : String
  cwd : String
deriving DecidableEq

/- ### String-keyed maps (JavaScript `Map<string, V>`) -/

/-- Association-list model of a JavaScript `Map` with string keys. -/
def SMap (α : Type) : Type := List (String × α)

instance {α : Type} [DecidableEq α] : DecidableEq (SMap α) := by
  unfold SMap; infer_instance

/-- The empty map. -/
def SMap.empty {α : Type} : SMap α := []

/-- Models `Map.prototype.get` (with `undefined` as `none`). -/
def SMap.get? {α : Type} (m : SMap α) (k : String) : Option α :=
  match m with
  | [] => none
  | (k', v) :: rest => if k' = k then some v else SMap.get? rest k

/-- Models `Map.prototype.set` (later entries shadow earlier ones). -/
def SMap.set {α : Type} (m : SMap α) (k : String) (v : α) : SMap α :=
  (k, v) :: m

/-- Models `Map.prototype.delete`. -/
def SMap.del {α : Type} (m : SMap α) (k : String) : SMap α :=
  match m with
  | [] => []
  | (k', v) :: rest => if k' = k then SMap.del rest k else (k', v) :: SMap.del rest k

/- ### Log record reader (`readConversationFile`, tail-window scan) -/

/-- One parsed JSONL record of a session log, as consumed by the tail scan of
`readConversationFile`: `{ type?, message?: { role, content }, timestamp?, cwd? }`.
`timestamp` is `none` when the field is absent or falsy; `some t` is the
numeric value (string timestamps already converted by `new Date(...)`). -/
structure LogEntry where
  type : Option String
  message : Option ClaudeMessage
  timestamp : Option Int
  cwd : Option String
deriving DecidableEq

/-- Mutable scan state of the backward loop of `readConversationFile`:
`lastMessage`, `lastMessageTimestamp` (initially `0`) and
`foundFirstMessage`. -/
structure ScanState where
  lastMessage : Option ClaudeMessage
  lastMessageTimestamp : Int
  foundFirstMessage : Bool
deriving DecidableEq

/-- The message recorded by the scan for a matching entry:
`{ role: entry.message.role || entry.type, content: entry.message.content,
cwd: entry.cwd }`.  A falsy (`""`) role falls back to `entry.type`
(collapsed to `""` when that is also absent, which no later role comparison
can distinguish from `undefined`). -/
def recordedMessage (e : LogEntry) (m : ClaudeMessage) : ClaudeMessage :=
  { role := if m.role = "" then e.type.getD "" else m.role
    content := m.content
    cwd := e.cwd }

/-- Whether the record is skipped by type:
`entry.type === "file-history-snapshot" || entry.type === "summary"`. -/
def isSkippedType (e : LogEntry) : Bool :=
  e.type = some "file-history-snapshot" || e.type = some "summary"

/-- The backward scan loop of `readConversationFile` over the (reversed)
tail-window lines.  A list element `none` models a line on which
`JSON.parse` throws (skipped by the inner `catch`).  Mirrors the source
loop: skip snapshot/summary records; require `entry.message && entry.timestamp`;
record the first timestamped message; `break` on a strictly older timestamp;
adopt a strictly newer timestamp and continue; skip an equal timestamp. -/
def scanLines (lines : List (Option LogEntry)) (s : ScanState) : ScanState :=
  match lines with
  | [] => s
  | line :: rest =>
    match line with
    | none => scanLines rest s
    | some e =>
      if isSkippedType e then
        scanLines rest s
      else
        match e.message, e.timestamp with
        | some m, some ts =>
          if !s.foundFirstMessage then
            scanLines rest ⟨some (recordedMessage e m), ts, true⟩
          else if ts < s.lastMessageTimestamp then
            s
          else if ts > s.lastMessageTimestamp then
            scanLines rest ⟨some (recordedMessage e m), ts, true⟩
          else
            scanLines rest s
        | _, _ => scanLines rest s

/-- The tail part of `readConversationFile`: scan at most the last 20
(reversed) lines, then
`lastModified = lastMessageTimestamp || stats.mtimeMs`.  Returns the
extracted last message and the `lastModified` timestamp. -/
def readTail (lines : List (Option LogEntry)) (mtimeMs : Int) :
    Option ClaudeMessage × Int :=
  let final := scanLines (lines.take 20) ⟨none, 0, false⟩
  (final.lastMessage,
    if final.lastMessageTimestamp ≠ 0 then final.lastMessageTimestamp else mtimeMs)

/- ### Status heuristics (`checkForWaitingInput`, `checkForExecuting`,
`checkForRecentlyFinished`) -/

/-- Five minutes in milliseconds (`5 * 60 * 1000`). -/
def fiveMinutesMs : Int := 5 * 60 * 1000

/-- Thirty minutes in milliseconds (`30 * 60 * 1000`). -/
def thirtyMinutesMs : Int := 30 * 60 * 1000

/-- 24 hours in milliseconds: `FILE_AGE_THRESHOLD_MS = 24 * 60 * 60 * 1000`. -/
def fileAgeThresholdMs : Int := 24 * 60 * 60 * 1000

/-- The configuration surface read from `workspacesList` settings, with the
documented defaults (`waitingMessageAge` 10s, `executingThreshold` 30s). -/
structure Config where
  waitingMessageAge : Int := 10000
  executingThreshold : Int := 30000
deriving DecidableEq

/-- The default configuration. -/
def defaultConfig : Config := {}

/-- The per-conversation test of `checkForWaitingInput`: modified within the
last five minutes, last message present with role `assistant` and truthy
content whose lowercased serialization contains `tool_use`, and message age
`now - lastModified` at least `waitingMessageAge`. -/
def waitingConvo (now waitingMessageAge : Int) (c : ConversationMetadata) : Bool :=
  decide (c.lastModified > now - fiveMinutesMs) &&
    match c.lastMessage with
    | none => false
    | some m =>
      m.role = "assistant" &&
        match m.content with
        | none => false
        | some content =>
          contentHasToolUse content &&
            decide (now - c.lastModified ≥ waitingMessageAge)

/-- `checkForWaitingInput`: first conversation satisfying `waitingConvo`
yields `{ isWaiting: true, lastMessageTime: convo.lastModified }`; the loop
simply continues past non-matching conversations. -/
def checkForWaitingInput (now waitingMessageAge : Int)
    (conversations : List ConversationMetadata) : Option Int :=
  (conversations.find? (waitingConvo now waitingMessageAge)).map (·.lastModified)

/-- The per-conversation test of `checkForExecuting`:
`convo.lastModified > now - executingThreshold`. -/
def executingConvo (now executingThreshold : Int) (c : ConversationMetadata) : Bool :=
  decide (c.lastModified > now - executingThreshold)

/-- `checkForExecuting`: first conversation with activity within the
executing threshold yields its `lastModified`. -/
def checkForExecuting (now executingThreshold : Int)
    (conversations : List ConversationMetadata) : Option Int :=
  (conversations.find? (executingConvo now executingThreshold)).map (·.lastModified)

/-- `checkForRecentlyFinished` (newer revision).  The conversations are
already sorted by `lastModified` descending, so `conversations[0]` is the
most recent.  Checks, in source order: `ageMs <= thirtyMinutesMs` and a last
message exists; the message does not predate the workspace monitoring
startup time (a truthy `workspaceStartupTimes` entry); the role test is
`msg.role === "assistant" || true`, i.e. disabled; finally
`JSON.stringify(msg.content).toLowerCase().includes("tool_use")` rejects.
`JSON.stringify(undefined)` is `undefined`, so an absent content field makes
`.toLowerCase()` throw: that is the `.error` case, which the `catch` of
`getStatus` turns into `undefined`.  The startup truthiness test
(`workspaceStartup && ...`) is split out as `startupSuppressed`. -/
def startupSuppressed (workspaceStartup : Option Int) (lastModified : Int) : Bool :=
  match workspaceStartup with
  | some s => decide (s ≠ 0) && decide (lastModified < s)
  | none => false

/-- See `checkForRecentlyFinished` below; the startup test
`workspaceStartup && mostRecentConvo.lastModified < workspaceStartup` is
`startupSuppressed`. -/
def checkForRecentlyFinished (now : Int) (workspaceStartup : Option Int)
    (conversations : List ConversationMetadata) : Except Unit (Option Int) :=
  match conversations.head? with
  | none => .ok none
  | some c =>
    if now - c.lastModified ≤ thirtyMinutesMs then
      match c.lastMessage with
      | none => .ok none
      | some m =>
        if startupSuppressed workspaceStartup c.lastModified then
          .ok none
        else
          match m.content with
          | none => .error ()
          | some content =>
            if contentHasToolUse content then .ok none
            else .ok (some c.lastModified)
    else .ok none

/- ### Workspace conversation aggregation and `getStatus` -/

/-- `encodeWorkspacePath`: replace every `/` with `-`
(`workspacePath.replace(/\//g, "-")`). -/
def encodeWorkspacePath (workspacePath : String) : String :=
  String.mk (workspacePath.data.map (fun c => if c = '/' then '-' else c))

/-- `CLAUDE_PROJECTS_DIR = path.join(HOME, ".claude", "projects")`; the
`HOME` prefix is irrelevant to the claims, so it is modelled by the fixed
suffix. -/
def claudeProjectsDir : String := ".claude/projects"

/-- The per-workspace project directory:
`path.join(CLAUDE_PROJECTS_DIR, encodeWorkspacePath(workspacePath))`. -/
def projectDirFor (workspacePath : String) : String :=
  claudeProjectsDir ++ "/" ++ encodeWorkspacePath workspacePath

/-- Filesystem oracle for one workspace's project directory, supplying the
outcomes of the I/O calls of `getWorkspaceConversations`:
`accessible` is whether `fs.access(projectDir)` succeeds; `listing` is the
outcome of `fs.readdir` plus the per-file `fs.stat` (the `.jsonl` entries as
`(path, mtimeMs)` pairs, `.error` when any of those calls throws); `read`
is the outcome of `readConversationFile` per file path. -/
structure ProjectDir where
  accessible : Bool
  listing : Except Unit (List (String × Int))
  read : String → Except Unit ConversationMetadata

/-- The in-memory caches of the `ClaudeCodeMonitor` singleton. -/
structure MonitorState where
  conversationCache : SMap (List ConversationMetadata)
  conversationFileCache : SMap ConversationMetadata
  workingDirectoryCache : SMap String
  projectDirExistsCache : SMap Bool
  projectFilesCache : SMap (List (String × Int))
  fileSizeCache : SMap Nat
  workspaceStartupTimes : SMap Int
  claudeProcessCache : List ClaudeProcess

/-- The monitor state right after construction: all caches empty. -/
def MonitorState.initial : MonitorState :=
  ⟨[], [], [], [], [], [], [], []⟩

/-- Kernel-computable `String.startsWith`. -/
def strStartsWith (s pre : String) : Bool := pre.data.isPrefixOf s.data

/-- `isClaudeProcessRunning`: some cached process has `cwd` equal to the
(normalized) workspace path or strictly below it
(`process.cwd.startsWith(normalizedWorkspace + path.sep)`).  Paths are
modelled as already normalized. -/
def isClaudeProcessRunning (procs : List ClaudeProcess) (workspacePath : String) : Bool :=
  procs.any (fun p => p.cwd = workspacePath || strStartsWith p.cwd (workspacePath ++ "/"))

/-- The per-file loop of `getWorkspaceConversations`: consult the
per-file summary cache, read and populate on a miss, and skip a file whose
read throws (the inner `catch`).  Returns the accumulated conversation list
and the updated state. -/
def readFilesLoop (fsys : ProjectDir) (files : List (String × Int))
    (st : MonitorState) : List ConversationMetadata × MonitorState :=
  match files with
  | [] => ([], st)
  | (p, _) :: rest =>
    match st.conversationFileCache.get? p with
    | some metadata =>
      let out := readFilesLoop fsys rest st
      (metadata :: out.1, out.2)
    | none =>
      match fsys.read p with
      | .ok metadata =>
        let st' := { st with
          conversationFileCache := st.conversationFileCache.set p metadata }
        let out := readFilesLoop fsys rest st'
        (metadata :: out.1, out.2)
      | .error _ => readFilesLoop fsys rest st

/-- The cached `fs.access` check of `getWorkspaceConversations`: consult
`projectDirExistsCache`, populate it from `fs.access` on a miss. -/
def dirExistsStep (fsys : ProjectDir) (projectDir : String) (st : MonitorState) :
    Bool × MonitorState :=
  match st.projectDirExistsCache.get? projectDir with
  | some b => (b, st)
  | none =>
    (fsys.accessible, { st with
      projectDirExistsCache :=
        st.projectDirExistsCache.set projectDir fsys.accessible })

/-- The tail of `getWorkspaceConversations`: run the per-file loop and cache
the resulting list under the workspace key. -/
def finishRead (fsys : ProjectDir) (workspacePath : String)
    (files : List (String × Int)) (st : MonitorState) :
    List ConversationMetadata × MonitorState :=
  let out := readFilesLoop fsys files st
  (out.1, { out.2 with
    conversationCache := out.2.conversationCache.set workspacePath out.1 })

/-- `getWorkspaceConversations` (newer revision): workspace-level cache,
cached `fs.access` check, cached `.jsonl` listing filtered to files whose
`mtime` is within the last 24 hours (`f.mtime >= now - FILE_AGE_THRESHOLD_MS`),
then the per-file loop; the result list is cached for the workspace.  A
`readdir`/`stat` failure is caught by the outer `catch` with the (empty)
accumulated list still cached. -/
def getWorkspaceConversations (fsys : ProjectDir) (now : Int)
    (workspacePath : String) (st : MonitorState) :
    List ConversationMetadata × MonitorState :=
  match st.conversationCache.get? workspacePath with
  | some cached => (cached, st)
  | none =>
    let projectDir := projectDirFor workspacePath
    let d := dirExistsStep fsys projectDir st
    if d.1 then
      match d.2.projectFilesCache.get? projectDir with
      | some jsonlFiles => finishRead fsys workspacePath jsonlFiles d.2
      | none =>
        match fsys.listing with
        | .error _ =>
          ([], { d.2 with
            conversationCache := d.2.conversationCache.set workspacePath [] })
        | .ok allFiles =>
          let jsonlFiles :=
            allFiles.filter (fun f => decide (f.2 ≥ now - fileAgeThresholdMs))
          finishRead fsys workspacePath jsonlFiles { d.2 with
            projectFilesCache := d.2.projectFilesCache.set projectDir jsonlFiles }
    else
      ([], { d.2 with
        conversationCache := d.2.conversationCache.set workspacePath [] })

/-- Stable descending insertion of one conversation: the inserted element
goes before the first element whose `lastModified` it reaches or exceeds,
so earlier-listed elements stay first among equals. -/
def insertDesc (c : ConversationMetadata) :
    List ConversationMetadata → List ConversationMetadata
  | [] => [c]
  | d :: rest =>
    if c.lastModified ≥ d.lastModified then c :: d :: rest
    else d :: insertDesc c rest

/-- Sorting of `getStatus`:
`conversations.sort((a, b) => b.lastModified - a.lastModified)`, i.e. a
stable sort by `lastModified` descending, modelled by stable insertion sort
(any two stable sorts under the same comparator produce the same list). -/
def sortConvos (conversations : List ConversationMetadata) :
    List ConversationMetadata :=
  conversations.foldr insertDesc []

/-- The startup-time initialization at the top of `getStatus`: set the
workspace's monitoring-start time to `now` unless already present. -/
def initStartup (now : Int) (workspacePath : String) (st : MonitorState) :
    MonitorState :=
  match st.workspaceStartupTimes.get? workspacePath with
  | some _ => st
  | none => { st with
      workspaceStartupTimes := st.workspaceStartupTimes.set workspacePath now }

/-- The pure status-selection part of `getStatus`, applied after the
conversation list has been obtained: `NoSession` for an empty list, then
first-match-wins over `checkForWaitingInput`, `checkForExecuting` and
`checkForRecentlyFinished` on the sorted list, finally `Running` /
`NotRunning` by `isProcessRunning`.  `conversationCount` is
`conversations.length` in every non-empty branch.  An exception out of
`checkForRecentlyFinished` is the `.error` case, turned into `none`
(`undefined`) by the `catch` of `getStatus`. -/
def computeStatus (cfg : Config) (now : Int) (isProcessRunning : Bool)
    (workspaceStartup : Option Int)
    (conversations : List ConversationMetadata) : Option ClaudeCodeStatusInfo :=
  if conversations.isEmpty then
    some ⟨.NoSession, none, 0⟩
  else
    let sorted := sortConvos conversations
    match checkForWaitingInput now cfg.waitingMessageAge sorted with
    | some t => some ⟨.WaitingForInput, some t, conversations.length⟩
    | none =>
      match checkForExecuting now cfg.executingThreshold sorted with
      | some t => some ⟨.Executing, some t, conversations.length⟩
      | none =>
        match checkForRecentlyFinished now workspaceStartup sorted with
        | .error _ => none
        | .ok (some t) => some ⟨.RecentlyFinished, some t, conversations.length⟩
        | .ok none =>
          if isProcessRunning then
            some ⟨.Running, none, conversations.length⟩
          else
            some ⟨.NotRunning, none, conversations.length⟩

/-- `getStatus` (newer revision): initialize the workspace startup time,
read the (cached) process-running flag, obtain the conversations, and select
the status.  Returns the `ClaudeCodeStatusInfo` (or `none` for the `catch`
branch) together with the updated monitor state. -/
def getStatus (cfg : Config) (fsys : ProjectDir) (now : Int)
    (workspacePath : String) (st : MonitorState) :
    Option ClaudeCodeStatusInfo × MonitorState :=
  let st1 := initStartup now workspacePath st
  let isRunning := isClaudeProcessRunning st1.claudeProcessCache workspacePath
  let out := getWorkspaceConversations fsys now workspacePath st1
  (computeStatus cfg now isRunning
      (out.2.workspaceStartupTimes.get? workspacePath) out.1,
    out.2)

/- ### Acknowledgement handling (`claudeCodeDecorator.ts`) -/

/-- The acknowledgement tie-break of `provideFileDecoration`: if
`acknowledgedTime && statusInfo.lastMessageTime &&
statusInfo.lastMessageTime <= acknowledgedTime` and the computed status is
`RecentlyFinished` or `Executing`, the displayed status becomes `Running`.
JavaScript truthiness of the two numbers is the `≠ 0` tests. -/
def displayedStatus (acknowledged : Option Int) (info : ClaudeCodeStatusInfo) :
    ClaudeCodeStatus :=
  match acknowledged, info.lastMessageTime with
  | some a, some t =>
    if a ≠ 0 ∧ t ≠ 0 ∧ t ≤ a then
      if info.status = .RecentlyFinished ∨ info.status = .Executing then
        .Running
      else info.status
    else info.status
  | _, _ => info.status

/-- The acknowledgement-clearing step of `updateStatus`: if
`acknowledgedTime && status?.lastMessageTime &&
status.lastMessageTime > acknowledgedTime`, the stored acknowledgement for
the workspace is deleted. -/
def updateAcknowledgement (acknowledged : Option Int)
    (newInfo : Option ClaudeCodeStatusInfo) : Option Int :=
  match acknowledged, newInfo.bind (·.lastMessageTime) with
  | some a, some t => if a ≠ 0 ∧ t ≠ 0 ∧ t > a then none else acknowledged
  | _, _ => acknowledged

/- ### Watch handler (`watchWorkspace`, `onDidChange` for a session file) -/

/-- The `onDidChange` callback registered by `watchWorkspace` (newer
revision) for a change event on `filePath` inside `workspacePath`'s project
directory.  `statSize` is the outcome of `fs.stat(uri.fsPath)` (its `size`).
If the stat succeeds, the previously recorded size is compared: an unchanged
size (`oldSize !== undefined && oldSize === stats.size`) is the liveness
ping and sets the workspace's monitoring-start time to `now`; in every case
the new size is recorded.  A stat failure is caught and skips the size
processing.  Afterwards the handler always evicts the file's summary-cache
entry and the workspace's conversation-list cache entry.  The handler never
reads the file's contents. -/
def onDidChange (workspacePath filePath : String) (statSize : Except Unit Nat)
    (now : Int) (st : MonitorState) : MonitorState :=
  let st1 :=
    match statSize with
    | .error _ => st
    | .ok size =>
      let oldSize := st.fileSizeCache.get? filePath
      let st' := { st with fileSizeCache := st.fileSizeCache.set filePath size }
      if oldSize = some size then
        { st' with
          workspaceStartupTimes := st'.workspaceStartupTimes.set workspacePath now }
      else st'
  { st1 with
    conversationFileCache := st1.conversationFileCache.del filePath
    conversationCache := st1.conversationCache.del workspacePath }

/-- The conversation list a `getStatus` call works on (after the startup-time
initialization). -/
def statusConvos (fsys : ProjectDir) (now : Int) (ws : String)
    (st : MonitorState) : List ConversationMetadata :=
  (getWorkspaceConversations fsys now ws (initStartup now ws st)).1

/-- The monitoring-start time `checkForRecentlyFinished` reads during a
`getStatus` call. -/
def statusStartup (fsys : ProjectDir) (now : Int) (ws : String)
    (st : MonitorState) : Option Int :=
  ((getWorkspaceConversations fsys now ws
      (initStartup now ws st)).2).workspaceStartupTimes.get? ws

/- ### Concrete fixtures used by witnesses and counterexamples -/

/-- A conversation summary whose last message is an assistant `tool_use`
message at time 1000000. -/
def mdToolUse : ConversationMetadata :=
  ⟨"/w1", 1000000, 3, some ⟨"assistant", some "tool_use", none⟩⟩

/-- A project directory with a single session file summarized by
`mdToolUse`. -/
def fsysToolUse : ProjectDir :=
  ⟨true, .ok [("f1", 1000000)], fun _ => .ok mdToolUse⟩

/-- A project directory whose `fs.access` check fails. -/
def fsysNoDir : ProjectDir :=
  ⟨false, .ok [], fun _ => .error ()⟩

/-- A conversation summary whose last message is an assistant message
without a `tool_use` marker, at time 1000000. -/
def mdFinished : ConversationMetadata :=
  ⟨"/w1", 1000000, 3, some ⟨"assistant", some "all done", none⟩⟩

/-- A project directory with a single session file summarized by
`mdFinished`. -/
def fsysFinished : ProjectDir :=
  ⟨true, .ok [("f1", 1000000)], fun _ => .ok mdFinished⟩

/-- A monitor state whose monitoring of workspace `/w1` started at time
500. -/
def stStartedEarly : MonitorState :=
  ⟨[], [], [], [], [], [], [("/w1", 500)], []⟩

/-- A monitor state holding a cached conversation list for `/w1` and a
recorded size 5 for file `f1`. -/
def stSized : MonitorState :=
  ⟨[("/w1", [mdFinished])], [("f1", mdFinished)], [], [], [], [("f1", 5)], [], []⟩

/-- A summary-type record, skipped by the tail scan. -/
def entrySummary : LogEntry := ⟨some "summary", none, none, none⟩

/-- A plain assistant message used in scan fixtures. -/
def msgA : ClaudeMessage := ⟨"assistant", some "hi", none⟩

/-- A record older than the running scan state. -/
def entryOld : LogEntry := ⟨none, some msgA, some 5, none⟩

/-- A record newer than the running scan state. -/
def entryNew : LogEntry := ⟨none, some msgA, some 20, none⟩

/-- A scan state that has already found a message at time 10. -/
def scanMid : ScanState := ⟨some msgA, 10, true⟩

/-- A project directory all of whose reads fail. -/
def fsysAllReadsFail : ProjectDir :=
  ⟨true, .ok [("f1", 1000000)], fun _ => .error ()⟩

/-- A session summary with no extracted last message. -/
def mdPlain : ConversationMetadata := ⟨"/w1", 1000000, 3, none⟩

/-- A project directory with one messageless session summary. -/
def fsysPlain : ProjectDir :=
  ⟨true, .ok [("f1", 1000000)], fun _ => .ok mdPlain⟩

/-- A project directory whose two session files are both older than 24
hours at the times used in the C10 witness. -/
def fsysOldFiles : ProjectDir :=
  ⟨true, .ok [("old1", 0), ("old2", 10)], fun _ => .ok mdPlain⟩


/- ### Helper lemmas about the embedding -/

theorem SMap.get?_set_self {α : Type} (m : SMap α) (k : String) (v : α) :
    (m.set k v).get? k = some v := by
  simp [SMap.set, SMap.get?]

theorem SMap.get?_set_ne {α : Type} (m : SMap α) (k k' : String) (v : α)
    (h : k ≠ k') : (m.set k v).get? k' = m.get? k' := by
  simp [SMap.set, SMap.get?, h]

theorem SMap.get?_del_self {α : Type} (m : SMap α) (k : String) :
    (m.del k).get? k = none := by
  induction m with
  | nil => rfl
  | cons p rest ih =>
    by_cases h : p.1 = k
    · simpa [SMap.del, h] using ih
    · simpa [SMap.del, SMap.get?, h] using ih

theorem SMap.get?_del_ne {α : Type} (m : SMap α) (k k' : String)
    (h : k ≠ k') : (m.del k).get? k' = m.get? k' := by
  induction m with
  | nil => rfl
  | cons p rest ih =>
    by_cases hp : p.1 = k
    · simp [SMap.del, SMap.get?, hp, h, Ne.symm h, ih]
    · by_cases hp' : p.1 = k'
      · simp [SMap.del, SMap.get?, hp, hp', Ne.symm h, ih]
      · simp [SMap.del, SMap.get?, hp, hp', ih]


theorem readFilesLoop_startupTimes (fsys : ProjectDir)
    (files : List (String × Int)) : ∀ st : MonitorState,
    ((readFilesLoop fsys files st).2).workspaceStartupTimes =
      st.workspaceStartupTimes := by
  induction files with
  | nil => intro st; rfl
  | cons f rest ih =>
    intro st
    unfold readFilesLoop
    rcases f with ⟨p, mt⟩
    cases h : st.conversationFileCache.get? p with
    | some md => simp [h, ih]
    | none =>
      cases hr : fsys.read p with
      | ok md => simp [h, hr, ih]
      | error e => simp [h, hr, ih]

theorem readFilesLoop_processCache (fsys : ProjectDir)
    (files : List (String × Int)) : ∀ st : MonitorState,
    ((readFilesLoop fsys files st).2).claudeProcessCache =
      st.claudeProcessCache := by
  induction files with
  | nil => intro st; rfl
  | cons f rest ih =>
    intro st
    unfold readFilesLoop
    rcases f with ⟨p, mt⟩
    cases h : st.conversationFileCache.get? p with
    | some md => simp [h, ih]
    | none =>
      cases hr : fsys.read p with
      | ok md => simp [h, hr, ih]
      | error e => simp [h, hr, ih]

theorem readFilesLoop_conversationCache (fsys : ProjectDir)
    (files : List (String × Int)) : ∀ st : MonitorState,
    ((readFilesLoop fsys files st).2).conversationCache =
      st.conversationCache := by
  induction files with
  | nil => intro st; rfl
  | cons f rest ih =>
    intro st
    unfold readFilesLoop
    rcases f with ⟨p, mt⟩
    cases h : st.conversationFileCache.get? p with
    | some md => simp [h, ih]
    | none =>
      cases hr : fsys.read p with
      | ok md => simp [h, hr, ih]
      | error e => simp [h, hr, ih]

theorem dirExistsStep_startupTimes (fsys : ProjectDir) (pd : String)
    (st : MonitorState) :
    ((dirExistsStep fsys pd st).2).workspaceStartupTimes =
      st.workspaceStartupTimes := by
  unfold dirExistsStep; split <;> rfl

theorem dirExistsStep_processCache (fsys : ProjectDir) (pd : String)
    (st : MonitorState) :
    ((dirExistsStep fsys pd st).2).claudeProcessCache =
      st.claudeProcessCache := by
  unfold dirExistsStep; split <;> rfl

theorem dirExistsStep_conversationCache (fsys : ProjectDir) (pd : String)
    (st : MonitorState) :
    ((dirExistsStep fsys pd st).2).conversationCache =
      st.conversationCache := by
  unfold dirExistsStep; split <;> rfl

theorem finishRead_startupTimes (fsys : ProjectDir) (ws : String)
    (files : List (String × Int)) (st : MonitorState) :
    ((finishRead fsys ws files st).2).workspaceStartupTimes =
      st.workspaceStartupTimes := by
  simp [finishRead, readFilesLoop_startupTimes]

theorem finishRead_processCache (fsys : ProjectDir) (ws : String)
    (files : List (String × Int)) (st : MonitorState) :
    ((finishRead fsys ws files st).2).claudeProcessCache =
      st.claudeProcessCache := by
  simp [finishRead, readFilesLoop_processCache]

theorem finishRead_cachesResult (fsys : ProjectDir) (ws : String)
    (files : List (String × Int)) (st : MonitorState) :
    ((finishRead fsys ws files st).2).conversationCache.get? ws =
      some (finishRead fsys ws files st).1 := by
  simp [finishRead, SMap.get?_set_self]

theorem getWC_state (fsys : ProjectDir) (now : Int) (ws : String)
    (st : MonitorState) :
    ((getWorkspaceConversations fsys now ws st).2).workspaceStartupTimes =
        st.workspaceStartupTimes ∧
      ((getWorkspaceConversations fsys now ws st).2).claudeProcessCache =
        st.claudeProcessCache ∧
      ((getWorkspaceConversations fsys now ws st).2).conversationCache.get? ws =
        some (getWorkspaceConversations fsys now ws st).1 := by
  unfold getWorkspaceConversations
  cases hc : st.conversationCache.get? ws with
  | some cached => simp [hc]
  | none =>
    simp only [hc]
    by_cases hd : (dirExistsStep fsys (projectDirFor ws) st).1 = true
    · simp only [hd, if_true]
      cases hf : (dirExistsStep fsys (projectDirFor ws) st).2.projectFilesCache.get?
          (projectDirFor ws) with
      | some jsonlFiles =>
        simp [hf, finishRead_startupTimes, finishRead_processCache,
          finishRead_cachesResult, dirExistsStep_startupTimes,
          dirExistsStep_processCache]
      | none =>
        cases hl : fsys.listing with
        | error e =>
          simp [hf, hl, dirExistsStep_startupTimes, dirExistsStep_processCache,
            SMap.get?_set_self]
        | ok allFiles =>
          simp [hf, hl, finishRead_startupTimes, finishRead_processCache,
            finishRead_cachesResult, dirExistsStep_startupTimes,
            dirExistsStep_processCache]
    · simp [hd, dirExistsStep_startupTimes, dirExistsStep_processCache,
        SMap.get?_set_self]

theorem getWC_startupTimes (fsys : ProjectDir) (now : Int) (ws : String)
    (st : MonitorState) :
    ((getWorkspaceConversations fsys now ws st).2).workspaceStartupTimes =
      st.workspaceStartupTimes :=
  (getWC_state fsys now ws st).1

theorem getWC_processCache (fsys : ProjectDir) (now : Int) (ws : String)
    (st : MonitorState) :
    ((getWorkspaceConversations fsys now ws st).2).claudeProcessCache =
      st.claudeProcessCache :=
  (getWC_state fsys now ws st).2.1

theorem getWC_cachesResult (fsys : ProjectDir) (now : Int) (ws : String)
    (st : MonitorState) :
    ((getWorkspaceConversations fsys now ws st).2).conversationCache.get? ws =
      some (getWorkspaceConversations fsys now ws st).1 :=
  (getWC_state fsys now ws st).2.2

theorem initStartup_get_self (now : Int) (ws : String) (st : MonitorState) :
    ((initStartup now ws st).workspaceStartupTimes).get? ws =
      some ((st.workspaceStartupTimes.get? ws).getD now) := by
  unfold initStartup
  cases h : st.workspaceStartupTimes.get? ws with
  | some v => simp [h]
  | none => simp [h, SMap.get?_set_self]

theorem initStartup_processCache (now : Int) (ws : String) (st : MonitorState) :
    (initStartup now ws st).claudeProcessCache = st.claudeProcessCache := by
  unfold initStartup; split <;> rfl

theorem initStartup_conversationCache (now : Int) (ws : String) (st : MonitorState) :
    (initStartup now ws st).conversationCache = st.conversationCache := by
  unfold initStartup; split <;> rfl

theorem initStartup_conversationFileCache (now : Int) (ws : String) (st : MonitorState) :
    (initStartup now ws st).conversationFileCache = st.conversationFileCache := by
  unfold initStartup; split <;> rfl

theorem initStartup_projectDirExistsCache (now : Int) (ws : String) (st : MonitorState) :
    (initStartup now ws st).projectDirExistsCache = st.projectDirExistsCache := by
  unfold initStartup; split <;> rfl

theorem initStartup_projectFilesCache (now : Int) (ws : String) (st : MonitorState) :
    (initStartup now ws st).projectFilesCache = st.projectFilesCache := by
  unfold initStartup; split <;> rfl

theorem initStartup_of_some (now : Int) (ws : String) (st : MonitorState)
    (v : Int) (h : st.workspaceStartupTimes.get? ws = some v) :
    initStartup now ws st = st := by
  unfold initStartup; rw [h]

theorem getStatus_fst (cfg : Config) (fsys : ProjectDir) (now : Int)
    (ws : String) (st : MonitorState) :
    (getStatus cfg fsys now ws st).1 =
      computeStatus cfg now (isClaudeProcessRunning st.claudeProcessCache ws)
        (statusStartup fsys now ws st) (statusConvos fsys now ws st) := by
  unfold getStatus statusStartup statusConvos
  dsimp only
  rw [initStartup_processCache]

theorem statusStartup_eq (fsys : ProjectDir) (now : Int) (ws : String)
    (st : MonitorState) :
    statusStartup fsys now ws st =
      some ((st.workspaceStartupTimes.get? ws).getD now) := by
  unfold statusStartup
  rw [getWC_startupTimes, initStartup_get_self]

theorem insertDesc_mem (c d : ConversationMetadata)
    (l : List ConversationMetadata) :
    d ∈ insertDesc c l ↔ d = c ∨ d ∈ l := by
  induction l with
  | nil => simp [insertDesc]
  | cons e rest ih =>
    by_cases h : c.lastModified ≥ e.lastModified
    · simp [insertDesc, h]
    · simp [insertDesc, h, ih]
      tauto

theorem sortConvos_mem (c : ConversationMetadata)
    (l : List ConversationMetadata) : c ∈ sortConvos l ↔ c ∈ l := by
  induction l with
  | nil => simp [sortConvos]
  | cons e rest ih =>
    simp only [sortConvos, List.foldr] at *
    rw [insertDesc_mem]
    simp [ih]

theorem sortConvos_eq_nil (l : List ConversationMetadata) :
    sortConvos l = [] ↔ l = [] := by
  cases l with
  | nil => simp [sortConvos]
  | cons e rest =>
    constructor
    · intro h
      have : e ∈ sortConvos (e :: rest) := by
        rw [sortConvos_mem]; exact List.mem_cons_self e rest
      rw [h] at this
      cases this
    · intro h; cases h

/-- Characterization of a successful `computeStatus`: the returned
`conversationCount` is always the length of the conversation list. -/
theorem computeStatus_count (cfg : Config) (now : Int) (run : Bool)
    (startup : Option Int) (convs : List ConversationMetadata)
    (info : ClaudeCodeStatusInfo)
    (h : computeStatus cfg now run startup convs = some info) :
    info.conversationCount = convs.length := by
  unfold computeStatus at h
  by_cases hc : convs.isEmpty
  · rw [if_pos hc] at h
    cases h
    simp [List.isEmpty_iff.mp hc]
  · rw [if_neg hc] at h
    dsimp only at h
    cases hw : checkForWaitingInput now cfg.waitingMessageAge (sortConvos convs) with
    | some t => rw [hw] at h; cases h; rfl
    | none =>
      rw [hw] at h
      cases he : checkForExecuting now cfg.executingThreshold (sortConvos convs) with
      | some t => rw [he] at h; cases h; rfl
      | none =>
        rw [he] at h
        cases hr : checkForRecentlyFinished now startup (sortConvos convs) with
        | error e => rw [hr] at h; cases h
        | ok o =>
          rw [hr] at h
          cases o with
          | some t => cases h; rfl
          | none =>
            by_cases hrun : run = true
            · rw [hrun] at h; simp at h; rw [← h]
            · simp only [Bool.not_eq_true] at hrun
              rw [hrun] at h; simp at h; rw [← h]

/-- A successful `computeStatus` is `NoSession` exactly on an empty
conversation list, and then carries no `lastMessageTime`. -/
theorem computeStatus_noSession (cfg : Config) (now : Int) (run : Bool)
    (startup : Option Int) (convs : List ConversationMetadata)
    (info : ClaudeCodeStatusInfo)
    (h : computeStatus cfg now run startup convs = some info) :
    (info.status = ClaudeCodeStatus.NoSession ↔ convs = []) := by
  unfold computeStatus at h
  by_cases hc : convs.isEmpty
  · rw [if_pos hc] at h
    cases h
    simp [List.isEmpty_iff.mp hc]
  · have hne : ¬convs = [] := by
      intro hnil; rw [hnil] at hc; exact hc rfl
    rw [if_neg hc] at h
    dsimp only at h
    cases hw : checkForWaitingInput now cfg.waitingMessageAge (sortConvos convs) with
    | some t => rw [hw] at h; cases h; simp [hne]
    | none =>
      rw [hw] at h
      cases he : checkForExecuting now cfg.executingThreshold (sortConvos convs) with
      | some t => rw [he] at h; cases h; simp [hne]
      | none =>
        rw [he] at h
        cases hr : checkForRecentlyFinished now startup (sortConvos convs) with
        | error e => rw [hr] at h; cases h
        | ok o =>
          rw [hr] at h
          cases o with
          | some t => cases h; simp [hne]
          | none =>
            by_cases hrun : run = true
            · rw [hrun] at h; simp at h; rw [← h]; simp [hne]
            · simp only [Bool.not_eq_true] at hrun
              rw [hrun] at h; simp at h; rw [← h]; simp [hne]

/-- Full case analysis of `computeStatus`, mirroring the first-match-wins
precedence of `getStatus`. -/
theorem computeStatus_cases (cfg : Config) (now : Int) (run : Bool)
    (startup : Option Int) (convs : List ConversationMetadata) :
    (convs = [] ∧ computeStatus cfg now run startup convs =
        some ⟨ClaudeCodeStatus.NoSession, none, 0⟩) ∨
    (convs ≠ [] ∧ ∃ t,
        checkForWaitingInput now cfg.waitingMessageAge (sortConvos convs) = some t ∧
        computeStatus cfg now run startup convs =
          some ⟨ClaudeCodeStatus.WaitingForInput, some t, convs.length⟩) ∨
    (convs ≠ [] ∧
      checkForWaitingInput now cfg.waitingMessageAge (sortConvos convs) = none ∧ ∃ t,
        checkForExecuting now cfg.executingThreshold (sortConvos convs) = some t ∧
        computeStatus cfg now run startup convs =
          some ⟨ClaudeCodeStatus.Executing, some t, convs.length⟩) ∨
    (convs ≠ [] ∧
      checkForWaitingInput now cfg.waitingMessageAge (sortConvos convs) = none ∧
      checkForExecuting now cfg.executingThreshold (sortConvos convs) = none ∧
      checkForRecentlyFinished now startup (sortConvos convs) = .error () ∧
      computeStatus cfg now run startup convs = none) ∨
    (convs ≠ [] ∧
      checkForWaitingInput now cfg.waitingMessageAge (sortConvos convs) = none ∧
      checkForExecuting now cfg.executingThreshold (sortConvos convs) = none ∧ ∃ t,
        checkForRecentlyFinished now startup (sortConvos convs) = .ok (some t) ∧
        computeStatus cfg now run startup convs =
          some ⟨ClaudeCodeStatus.RecentlyFinished, some t, convs.length⟩) ∨
    (convs ≠ [] ∧
      checkForWaitingInput now cfg.waitingMessageAge (sortConvos convs) = none ∧
      checkForExecuting now cfg.executingThreshold (sortConvos convs) = none ∧
      checkForRecentlyFinished now startup (sortConvos convs) = .ok none ∧
      ((run = true ∧ computeStatus cfg now run startup convs =
          some ⟨ClaudeCodeStatus.Running, none, convs.length⟩) ∨
       (run = false ∧ computeStatus cfg now run startup convs =
          some ⟨ClaudeCodeStatus.NotRunning, none, convs.length⟩))) := by
  by_cases hc : convs.isEmpty
  · exact Or.inl ⟨List.isEmpty_iff.mp hc, by unfold computeStatus; rw [if_pos hc]⟩
  · have hne : convs ≠ [] := by
      intro h; rw [h] at hc; exact hc rfl
    right
    cases hw : checkForWaitingInput now cfg.waitingMessageAge (sortConvos convs) with
    | some t =>
      exact Or.inl ⟨hne, t, rfl, by
        unfold computeStatus; rw [if_neg hc]; dsimp only; rw [hw]⟩
    | none =>
      right
      cases he : checkForExecuting now cfg.executingThreshold (sortConvos convs) with
      | some t =>
        exact Or.inl ⟨hne, rfl, t, rfl, by
          unfold computeStatus; rw [if_neg hc]; dsimp only; rw [hw, he]⟩
      | none =>
        right
        cases hr : checkForRecentlyFinished now startup (sortConvos convs) with
        | error e =>
          cases e
          exact Or.inl ⟨hne, rfl, rfl, rfl, by
            unfold computeStatus; rw [if_neg hc]; dsimp only; rw [hw, he, hr]⟩
        | ok o =>
          right
          cases o with
          | some t =>
            exact Or.inl ⟨hne, rfl, rfl, t, rfl, by
              unfold computeStatus; rw [if_neg hc]; dsimp only; rw [hw, he, hr]⟩
          | none =>
            refine Or.inr ⟨hne, rfl, rfl, rfl, ?_⟩
            cases hrun : run with
            | true =>
              exact Or.inl ⟨rfl, by
                unfold computeStatus; rw [if_neg hc]; dsimp only
                rw [hw, he, hr]; simp⟩
            | false =>
              exact Or.inr ⟨rfl, by
                unfold computeStatus; rw [if_neg hc]; dsimp only
                rw [hw, he, hr]; simp⟩

theorem waitingConvo_iff (now age : Int) (c : ConversationMetadata) :
    waitingConvo now age c = true ↔
      (c.lastModified > now - fiveMinutesMs ∧
        ∃ m content, c.lastMessage = some m ∧ m.role = "assistant" ∧
          m.content = some content ∧ contentHasToolUse content = true ∧
          now - c.lastModified ≥ age) := by
  unfold waitingConvo
  cases hm : c.lastMessage with
  | none => simp [hm]
  | some m =>
    cases hc : m.content with
    | none => simp [hm, hc]
    | some content =>
      simp [hm, hc, and_assoc]

theorem checkForWaitingInput_some (now age : Int)
    (l : List ConversationMetadata) (t : Int)
    (h : checkForWaitingInput now age l = some t) :
    ∃ c, c ∈ l ∧ waitingConvo now age c = true ∧ t = c.lastModified := by
  unfold checkForWaitingInput at h
  cases hf : l.find? (waitingConvo now age) with
  | none => rw [hf] at h; cases h
  | some c =>
    rw [hf] at h
    cases h
    exact ⟨c, List.mem_of_find?_eq_some hf, List.find?_some hf, rfl⟩

theorem checkForWaitingInput_of_mem (now age : Int)
    (l : List ConversationMetadata) (c : ConversationMetadata)
    (hc : c ∈ l) (hp : waitingConvo now age c = true) :
    ∃ t, checkForWaitingInput now age l = some t := by
  have : (l.find? (waitingConvo now age)).isSome := by
    rw [List.find?_isSome]
    exact ⟨c, hc, hp⟩
  cases hf : l.find? (waitingConvo now age) with
  | none => rw [hf] at this; cases this
  | some c0 => exact ⟨c0.lastModified, by unfold checkForWaitingInput; rw [hf]; rfl⟩

theorem startupSuppressed_false_iff (startup : Option Int) (lm : Int) :
    startupSuppressed startup lm = false ↔
      ∀ s, startup = some s → s ≠ 0 → lm ≥ s := by
  cases startup with
  | none => simp [startupSuppressed]
  | some s =>
    simp only [startupSuppressed, Bool.and_eq_false_iff]
    constructor
    · intro h s' hs' hne
      cases hs'
      rcases h with h | h
      · simp at h; exact absurd h hne
      · simp at h; omega
    · intro h
      by_cases hz : s = 0
      · left; simp [hz]
      · right; simp; exact h s rfl hz

theorem checkForRecentlyFinished_ok_some (now : Int) (startup : Option Int)
    (convs : List ConversationMetadata) (t : Int)
    (h : checkForRecentlyFinished now startup convs = .ok (some t)) :
    ∃ c m content, convs.head? = some c ∧ t = c.lastModified ∧
      now - c.lastModified ≤ thirtyMinutesMs ∧ c.lastMessage = some m ∧
      startupSuppressed startup c.lastModified = false ∧
      m.content = some content ∧ contentHasToolUse content = false := by
  unfold checkForRecentlyFinished at h
  cases hh : convs.head? with
  | none => rw [hh] at h; cases h
  | some c =>
    rw [hh] at h
    dsimp only at h
    by_cases h30 : now - c.lastModified ≤ thirtyMinutesMs
    · rw [if_pos h30] at h
      cases hm : c.lastMessage with
      | none => rw [hm] at h; cases h
      | some m =>
        rw [hm] at h
        cases hsup : startupSuppressed startup c.lastModified with
        | true => simp [hsup] at h
        | false =>
          simp only [hsup, Bool.false_eq_true, if_false] at h
          cases hct : m.content with
          | none => rw [hct] at h; cases h
          | some content =>
            rw [hct] at h
            cases htool : contentHasToolUse content with
            | true => simp [htool] at h
            | false =>
              simp only [htool, Bool.false_eq_true, if_false, Except.ok.injEq,
                Option.some.injEq] at h
              exact ⟨c, m, content, rfl, h.symm, h30, hm, hsup, hct, htool⟩
    · rw [if_neg h30] at h; cases h

theorem checkForRecentlyFinished_eq_ok_some (now : Int) (startup : Option Int)
    (convs : List ConversationMetadata) (c : ConversationMetadata)
    (m : ClaudeMessage) (content : String)
    (hh : convs.head? = some c)
    (h30 : now - c.lastModified ≤ thirtyMinutesMs)
    (hm : c.lastMessage = some m)
    (hsup : startupSuppressed startup c.lastModified = false)
    (hct : m.content = some content)
    (htool : contentHasToolUse content = false) :
    checkForRecentlyFinished now startup convs = .ok (some c.lastModified) := by
  unfold checkForRecentlyFinished
  rw [hh]
  dsimp only
  rw [if_pos h30, hm]
  simp [hsup, hct, htool]

theorem getWC_cached (fsys : ProjectDir) (now : Int) (ws : String)
    (st : MonitorState) (l : List ConversationMetadata)
    (h : st.conversationCache.get? ws = some l) :
    getWorkspaceConversations fsys now ws st = (l, st) := by
  unfold getWorkspaceConversations
  rw [h]

theorem getStatus_idem (cfg : Config) (fsys : ProjectDir) (now : Int)
    (ws : String) (st : MonitorState) :
    getStatus cfg fsys now ws (getStatus cfg fsys now ws st).2 =
      getStatus cfg fsys now ws st := by
  unfold getStatus
  dsimp only
  have hsome :
      ((getWorkspaceConversations fsys now ws
          (initStartup now ws st)).2).workspaceStartupTimes.get? ws =
        some ((st.workspaceStartupTimes.get? ws).getD now) := by
    rw [getWC_startupTimes, initStartup_get_self]
  rw [initStartup_of_some now ws _ _ hsome]
  rw [getWC_cached fsys now ws _ _ (getWC_cachesResult fsys now ws (initStartup now ws st))]
  rw [getWC_processCache]

theorem readFilesLoop_length (fsys : ProjectDir) :
    ∀ (files : List (String × Int)) (st : MonitorState),
    (∀ q ∈ files, st.conversationFileCache.get? q.1 ≠ none ∨
        ∃ md, fsys.read q.1 = .ok md) →
    (readFilesLoop fsys files st).1.length = files.length := by
  intro files
  induction files with
  | nil => intro st _; rfl
  | cons f rest ih =>
    intro st h
    unfold readFilesLoop
    rcases f with ⟨p, mt⟩
    cases hc : st.conversationFileCache.get? p with
    | some md =>
      dsimp only
      simp only [List.length_cons]
      rw [ih st (fun q hq => h q (List.mem_cons_of_mem _ hq))]
    | none =>
      rcases h (p, mt) (List.mem_cons_self _ _) with hne | ⟨md, hrd⟩
      · exact absurd hc hne
      · rw [hrd]
        dsimp only
        simp only [List.length_cons]
        rw [ih _ ?_]
        intro q hq
        rcases h q (List.mem_cons_of_mem _ hq) with hne | hok
        · left
          by_cases hpq : p = q.1
          · subst hpq
            rw [SMap.get?_set_self]
            simp
          · rw [SMap.get?_set_ne _ _ _ _ hpq]
            exact hne
        · right; exact hok

theorem readFilesLoop_skip_error (fsys : ProjectDir) (p : String) (mt : Int)
    (rest : List (String × Int)) (st : MonitorState)
    (hc : st.conversationFileCache.get? p = none)
    (hrd : fsys.read p = .error ()) :
    readFilesLoop fsys ((p, mt) :: rest) st = readFilesLoop fsys rest st := by
  conv_lhs => unfold readFilesLoop
  rw [hc, hrd]

theorem getWC_inaccessible (fsys : ProjectDir) (now : Int) (ws : String)
    (st : MonitorState)
    (hcc : st.conversationCache.get? ws = none)
    (hde : st.projectDirExistsCache.get? (projectDirFor ws) = none)
    (hacc : fsys.accessible = false) :
    (getWorkspaceConversations fsys now ws st).1 = [] := by
  unfold getWorkspaceConversations
  rw [hcc]
  dsimp only
  unfold dirExistsStep
  rw [hde]
  dsimp only
  rw [hacc]
  simp

theorem getWC_fresh (fsys : ProjectDir) (now : Int) (ws : String)
    (st : MonitorState) (files : List (String × Int))
    (hcc : st.conversationCache.get? ws = none)
    (hde : st.projectDirExistsCache.get? (projectDirFor ws) = none)
    (hacc : fsys.accessible = true)
    (hfl : st.projectFilesCache.get? (projectDirFor ws) = none)
    (hlist : fsys.listing = .ok files) :
    ∃ st', getWorkspaceConversations fsys now ws st =
        finishRead fsys ws
          (files.filter (fun f => decide (f.2 ≥ now - fileAgeThresholdMs))) st' ∧
      st'.conversationFileCache = st.conversationFileCache := by
  unfold getWorkspaceConversations
  rw [hcc]
  dsimp only
  unfold dirExistsStep
  rw [hde]
  dsimp only
  rw [hacc]
  simp only [if_pos rfl]
  rw [hfl, hlist]
  exact ⟨_, rfl, rfl⟩

/- ### Shared helpers for the waiting-status claims -/

theorem getStatus_waiting_of_mem (cfg : Config) (fsys : ProjectDir) (now : Int)
    (ws : String) (st : MonitorState) (c : ConversationMetadata)
    (hc : c ∈ statusConvos fsys now ws st)
    (hw : waitingConvo now cfg.waitingMessageAge c = true) :
    ∃ info, (getStatus cfg fsys now ws st).1 = some info ∧
      info.status = ClaudeCodeStatus.WaitingForInput := by
  rw [getStatus_fst]
  have hcs : c ∈ sortConvos (statusConvos fsys now ws st) :=
    (sortConvos_mem c _).mpr hc
  obtain ⟨t, ht⟩ := checkForWaitingInput_of_mem now cfg.waitingMessageAge _ c hcs hw
  rcases computeStatus_cases cfg now
      (isClaudeProcessRunning st.claudeProcessCache ws)
      (statusStartup fsys now ws st) (statusConvos fsys now ws st) with
    ⟨hnil, _⟩ | ⟨_, t', _, heq⟩ | ⟨_, hwn, _⟩ | ⟨_, hwn, _⟩ | ⟨_, hwn, _⟩ |
    ⟨_, hwn, _⟩
  · rw [hnil] at hc; cases hc
  · exact ⟨_, heq, rfl⟩
  · rw [ht] at hwn; cases hwn
  · rw [ht] at hwn; cases hwn
  · rw [ht] at hwn; cases hwn
  · rw [ht] at hwn; cases hwn

theorem getStatus_waiting_imp (cfg : Config) (fsys : ProjectDir) (now : Int)
    (ws : String) (st : MonitorState) (info : ClaudeCodeStatusInfo)
    (h : (getStatus cfg fsys now ws st).1 = some info)
    (hs : info.status = ClaudeCodeStatus.WaitingForInput) :
    ∃ c ∈ statusConvos fsys now ws st,
      waitingConvo now cfg.waitingMessageAge c = true := by
  rw [getStatus_fst] at h
  rcases computeStatus_cases cfg now
      (isClaudeProcessRunning st.claudeProcessCache ws)
      (statusStartup fsys now ws st) (statusConvos fsys now ws st) with
    ⟨_, heq⟩ | ⟨_, t, hwt, heq⟩ | ⟨_, _, t, _, heq⟩ | ⟨_, _, _, _, heq⟩ |
    ⟨_, _, _, t, _, heq⟩ | ⟨_, _, _, _, hrun⟩
  · rw [heq] at h; cases h; cases hs
  · obtain ⟨c, hcm, hcp, _⟩ := checkForWaitingInput_some now cfg.waitingMessageAge _ t hwt
    exact ⟨c, (sortConvos_mem c _).mp hcm, hcp⟩
  · rw [heq] at h; cases h; cases hs
  · rw [heq] at h; cases h
  · rw [heq] at h; cases h; cases hs
  · rcases hrun with ⟨_, heq⟩ | ⟨_, heq⟩
    · rw [heq] at h; cases h; cases hs
    · rw [heq] at h; cases h; cases hs

/- ### Claim theorems -/

/-- C1: for every workspace key, whenever `getStatus` returns a
`StatusInfo`, the status is `NoSession` iff the `conversationCount` is `0`;
and on an empty conversation list the result is exactly
`{status: NoSession, conversationCount: 0}` (no `lastMessageTime`). -/
theorem c1_noSession_iff_zero_count (cfg : Config) (fsys : ProjectDir)
    (now : Int) (ws : String) (st : MonitorState)
    (info : ClaudeCodeStatusInfo)
    (h : (getStatus cfg fsys now ws st).1 = some info) :
    (info.status = ClaudeCodeStatus.NoSession ↔ info.conversationCount = 0) ∧
    (∀ (run : Bool) (startup : Option Int),
      computeStatus cfg now run startup [] =
        some ⟨ClaudeCodeStatus.NoSession, none, 0⟩) := by
  constructor
  · rw [getStatus_fst] at h
    have hcount := computeStatus_count _ _ _ _ _ _ h
    have hns := computeStatus_noSession _ _ _ _ _ _ h
    rw [hns, hcount]
    exact List.length_eq_zero.symm
  · intro run startup
    rfl

/-- Witness for C1 at a workspace whose project directory is missing. -/
theorem c1_witness :
    ((ClaudeCodeStatusInfo.mk ClaudeCodeStatus.NoSession none 0).status =
        ClaudeCodeStatus.NoSession ↔
      (ClaudeCodeStatusInfo.mk ClaudeCodeStatus.NoSession none 0).conversationCount = 0) ∧
    computeStatus defaultConfig 5 true none [] =
      some ⟨ClaudeCodeStatus.NoSession, none, 0⟩ :=
  ⟨(c1_noSession_iff_zero_count defaultConfig fsysNoDir 5 "/w"
      MonitorState.initial ⟨ClaudeCodeStatus.NoSession, none, 0⟩ (by decide)).1,
    (c1_noSession_iff_zero_count defaultConfig fsysNoDir 5 "/w"
      MonitorState.initial ⟨ClaudeCodeStatus.NoSession, none, 0⟩ (by decide)).2
      true none⟩

/-- C2: a conversation summary satisfying both the waiting heuristic and the
executing heuristic yields `WaitingForInput` — the waiting check runs first
in the ordered precedence of `getStatus`. -/
theorem c2_waiting_beats_executing (cfg : Config) (fsys : ProjectDir)
    (now : Int) (ws : String) (st : MonitorState) (c : ConversationMetadata)
    (hc : c ∈ statusConvos fsys now ws st)
    (hw : waitingConvo now cfg.waitingMessageAge c = true)
    (he : executingConvo now cfg.executingThreshold c = true) :
    ∃ info, (getStatus cfg fsys now ws st).1 = some info ∧
      info.status = ClaudeCodeStatus.WaitingForInput :=
  getStatus_waiting_of_mem cfg fsys now ws st c hc hw

/-- Witness for C2: a 20-second-old assistant `tool_use` message satisfies
both heuristics and the reported status is `WaitingForInput`. -/
theorem c2_witness :
    ∃ info, (getStatus defaultConfig fsysToolUse 1020000 "/w1"
        MonitorState.initial).1 = some info ∧
      info.status = ClaudeCodeStatus.WaitingForInput :=
  c2_waiting_beats_executing defaultConfig fsysToolUse 1020000 "/w1"
    MonitorState.initial mdToolUse (by decide) (by decide) (by decide)

/-- C3: `getStatus` reports `WaitingForInput` exactly when some conversation
summary was modified within the last five minutes, its last message role is
`assistant`, the serialized content contains `tool_use`, and the message age
is at least the configurable threshold, which defaults to 10 seconds. -/
theorem c3_waiting_characterization (cfg : Config) (fsys : ProjectDir)
    (now : Int) (ws : String) (st : MonitorState) :
    ((∃ info, (getStatus cfg fsys now ws st).1 = some info ∧
        info.status = ClaudeCodeStatus.WaitingForInput) ↔
      ∃ c ∈ statusConvos fsys now ws st,
        c.lastModified > now - fiveMinutesMs ∧
        ∃ m content, c.lastMessage = some m ∧ m.role = "assistant" ∧
          m.content = some content ∧ contentHasToolUse content = true ∧
          now - c.lastModified ≥ cfg.waitingMessageAge) ∧
    defaultConfig.waitingMessageAge = 10000 := by
  refine ⟨⟨?_, ?_⟩, rfl⟩
  · rintro ⟨info, h, hs⟩
    obtain ⟨c, hc, hw⟩ := getStatus_waiting_imp cfg fsys now ws st info h hs
    exact ⟨c, hc, (waitingConvo_iff now cfg.waitingMessageAge c).mp hw⟩
  · rintro ⟨c, hc, hpred⟩
    exact getStatus_waiting_of_mem cfg fsys now ws st c hc
      ((waitingConvo_iff now cfg.waitingMessageAge c).mpr hpred)

/-- C4: `getStatus` reports `RecentlyFinished` only when neither the waiting
nor the executing heuristic fired, the single most-recently-modified summary
is within the 30-minute window, its last message's serialized content has no
`tool_use` marker, and its timestamp is not older than the workspace's
(nonzero) monitoring-start time; conversely, under those conditions — for a
summary whose last message role is `assistant`, with no acknowledgement
stored — `RecentlyFinished` is reported and displayed. -/
theorem c4_recentlyFinished_characterization (cfg : Config) (fsys : ProjectDir)
    (now : Int) (ws : String) (st : MonitorState) :
    (∀ info, (getStatus cfg fsys now ws st).1 = some info →
      info.status = ClaudeCodeStatus.RecentlyFinished →
      checkForWaitingInput now cfg.waitingMessageAge
          (sortConvos (statusConvos fsys now ws st)) = none ∧
      checkForExecuting now cfg.executingThreshold
          (sortConvos (statusConvos fsys now ws st)) = none ∧
      ∃ c m content,
        (sortConvos (statusConvos fsys now ws st)).head? = some c ∧
        info.lastMessageTime = some c.lastModified ∧
        now - c.lastModified ≤ thirtyMinutesMs ∧
        c.lastMessage = some m ∧ m.content = some content ∧
        contentHasToolUse content = false ∧
        (∀ s, statusStartup fsys now ws st = some s → s ≠ 0 →
          c.lastModified ≥ s)) ∧
    (∀ c m content,
      checkForWaitingInput now cfg.waitingMessageAge
          (sortConvos (statusConvos fsys now ws st)) = none →
      checkForExecuting now cfg.executingThreshold
          (sortConvos (statusConvos fsys now ws st)) = none →
      (sortConvos (statusConvos fsys now ws st)).head? = some c →
      now - c.lastModified ≤ thirtyMinutesMs →
      c.lastMessage = some m → m.role = "assistant" →
      m.content = some content → contentHasToolUse content = false →
      (∀ s, statusStartup fsys now ws st = some s → s ≠ 0 →
        c.lastModified ≥ s) →
      ∃ info, (getStatus cfg fsys now ws st).1 = some info ∧
        info.status = ClaudeCodeStatus.RecentlyFinished ∧
        info.lastMessageTime = some c.lastModified ∧
        displayedStatus none info = ClaudeCodeStatus.RecentlyFinished) := by
  constructor
  · intro info h hs
    rw [getStatus_fst] at h
    rcases computeStatus_cases cfg now
        (isClaudeProcessRunning st.claudeProcessCache ws)
        (statusStartup fsys now ws st) (statusConvos fsys now ws st) with
      ⟨_, heq⟩ | ⟨_, t, _, heq⟩ | ⟨_, _, t, _, heq⟩ | ⟨_, _, _, _, heq⟩ |
      ⟨_, hwn, hen, t, hrf, heq⟩ | ⟨_, _, _, _, hrun⟩
    · rw [heq] at h; cases h; cases hs
    · rw [heq] at h; cases h; cases hs
    · rw [heq] at h; cases h; cases hs
    · rw [heq] at h; cases h
    · rw [heq] at h
      cases h
      obtain ⟨c, m, content, hh, ht, h30, hm, hsup, hct, htool⟩ :=
        checkForRecentlyFinished_ok_some now (statusStartup fsys now ws st) _ t hrf
      subst ht
      exact ⟨hwn, hen, c, m, content, hh, rfl, h30, hm, hct, htool,
        (startupSuppressed_false_iff _ _).mp hsup⟩
    · rcases hrun with ⟨_, heq⟩ | ⟨_, heq⟩
      · rw [heq] at h; cases h; cases hs
      · rw [heq] at h; cases h; cases hs
  · intro c m content hwn hen hh h30 hm _ hct htool hstart
    have hsup : startupSuppressed (statusStartup fsys now ws st) c.lastModified = false :=
      (startupSuppressed_false_iff _ _).mpr hstart
    have hrf := checkForRecentlyFinished_eq_ok_some now
      (statusStartup fsys now ws st) _ c m content hh h30 hm hsup hct htool
    rw [getStatus_fst]
    rcases computeStatus_cases cfg now
        (isClaudeProcessRunning st.claudeProcessCache ws)
        (statusStartup fsys now ws st) (statusConvos fsys now ws st) with
      ⟨hnil, _⟩ | ⟨_, t, hwt, _⟩ | ⟨_, _, t, het, _⟩ | ⟨_, _, _, hrf', _⟩ |
      ⟨_, _, _, t, hrf', heq⟩ | ⟨_, _, _, hrf', _⟩
    · rw [hnil] at hh; cases hh
    · rw [hwt] at hwn; cases hwn
    · rw [het] at hen; cases hen
    · rw [hrf] at hrf'; cases hrf'
    · rw [hrf] at hrf'
      cases hrf'
      exact ⟨_, heq, rfl, rfl, rfl⟩
    · rw [hrf] at hrf'; cases hrf'

/-- C5: an acknowledgement at or after the justifying timestamp of a
`RecentlyFinished`/`Executing` status makes the displayed status `Running`;
a strictly newer computed `lastMessageTime` clears the stored
acknowledgement, after which no suppression occurs. -/
theorem c5_acknowledgement (a t : Int) (info : ClaudeCodeStatusInfo)
    (newInfo : Option ClaudeCodeStatusInfo)
    (hlt : info.lastMessageTime = some t) (hpos : 0 < t) :
    (t ≤ a →
      (info.status = ClaudeCodeStatus.RecentlyFinished ∨
        info.status = ClaudeCodeStatus.Executing) →
      displayedStatus (some a) info = ClaudeCodeStatus.Running) ∧
    (0 < a →
      newInfo.bind ClaudeCodeStatusInfo.lastMessageTime = some t → a < t →
      updateAcknowledgement (some a) newInfo = none) ∧
    (∀ info2, displayedStatus none info2 = info2.status) := by
  refine ⟨?_, ?_, ?_⟩
  · intro hle hst
    unfold displayedStatus
    rw [hlt]
    dsimp only
    rw [if_pos ⟨by omega, by omega, hle⟩, if_pos hst]
  · intro hapos hbind hgt
    unfold updateAcknowledgement
    rw [hbind]
    dsimp only
    rw [if_pos ⟨by omega, by omega, hgt⟩]
  · intro info2
    unfold displayedStatus
    cases info2.lastMessageTime <;> rfl

/-- Witness for C4: a 20-minute-old assistant message with no `tool_use`
marker, monitoring started before it, reports `RecentlyFinished`. -/
theorem c4_witness :
    ∃ info, (getStatus defaultConfig fsysFinished 2200000 "/w1"
        stStartedEarly).1 = some info ∧
      info.status = ClaudeCodeStatus.RecentlyFinished ∧
      info.lastMessageTime = some 1000000 ∧
      displayedStatus none info = ClaudeCodeStatus.RecentlyFinished :=
  (c4_recentlyFinished_characterization defaultConfig fsysFinished 2200000
      "/w1" stStartedEarly).2
    mdFinished ⟨"assistant", some "all done", none⟩ "all done"
    (by decide) (by decide) (by decide) (by decide) rfl rfl rfl (by decide)
    (by
      intro s hs hz
      have hss : statusStartup fsysFinished 2200000 "/w1" stStartedEarly =
          some 500 := by decide
      rw [hss] at hs
      cases hs
      decide)

/-- Witness for C5 at concrete timestamps 1500 (message) and 2000
(acknowledgement), and the clearing direction with a 2500 message. -/
theorem c5_witness :
    displayedStatus (some 2000)
        ⟨ClaudeCodeStatus.RecentlyFinished, some 1500, 1⟩ =
      ClaudeCodeStatus.Running ∧
    updateAcknowledgement (some 2000)
        (some ⟨ClaudeCodeStatus.RecentlyFinished, some 2500, 1⟩) = none ∧
    displayedStatus none ⟨ClaudeCodeStatus.Executing, some 2500, 1⟩ =
      ClaudeCodeStatus.Executing :=
  ⟨(c5_acknowledgement 2000 1500
      ⟨ClaudeCodeStatus.RecentlyFinished, some 1500, 1⟩ none rfl (by decide)).1
      (by decide) (Or.inl rfl),
    (c5_acknowledgement 2000 2500
      ⟨ClaudeCodeStatus.Executing, some 2500, 1⟩
      (some ⟨ClaudeCodeStatus.RecentlyFinished, some 2500, 1⟩) rfl
      (by decide)).2.1 (by decide) rfl (by decide),
    (c5_acknowledgement 2000 1500
      ⟨ClaudeCodeStatus.RecentlyFinished, some 1500, 1⟩ none rfl
      (by decide)).2.2 ⟨ClaudeCodeStatus.Executing, some 2500, 1⟩⟩

/- ### C6: the watch handler's size comparison -/

/-- Counterexample to C6 as stated: a change event for `f1` with a
different size (7, previously 5) does not "only evict that file's summary
cache entry" — it also evicts the workspace's conversation-list cache
entry. -/
theorem c6_counterexample :
    (5 : Nat) ≠ 7 ∧
    stSized.fileSizeCache.get? "f1" = some 5 ∧
    stSized.conversationCache.get? "/w1" = some [mdFinished] ∧
    (onDidChange "/w1" "f1" (.ok 7) 99 stSized).conversationCache.get? "/w1" =
      none := by
  refine ⟨by decide, by decide, by decide, ?_⟩
  decide

/-- C6 (amended): a change event whose stat size equals the recorded size
resets the workspace's monitoring-start time to now; one with a different or
unrecorded size leaves the start time unchanged; in both cases the handler
records the new size and evicts the file's summary-cache entry together
with the workspace's conversation-list cache entry, without reading the
file's contents. -/
theorem c6_amended (ws f : String) (sz : Nat) (now : Int) (st : MonitorState) :
    (st.fileSizeCache.get? f = some sz →
      (onDidChange ws f (.ok sz) now st).workspaceStartupTimes.get? ws =
        some now) ∧
    (st.fileSizeCache.get? f ≠ some sz →
      (onDidChange ws f (.ok sz) now st).workspaceStartupTimes =
        st.workspaceStartupTimes) ∧
    (onDidChange ws f (.ok sz) now st).fileSizeCache.get? f = some sz ∧
    (onDidChange ws f (.ok sz) now st).conversationFileCache.get? f = none ∧
    (onDidChange ws f (.ok sz) now st).conversationCache.get? ws = none := by
  unfold onDidChange
  dsimp only
  by_cases h : st.fileSizeCache.get? f = some sz
  · rw [if_pos h]
    refine ⟨fun _ => ?_, fun hn => absurd h hn, ?_, ?_, ?_⟩
    · exact SMap.get?_set_self _ _ _
    · exact SMap.get?_set_self _ _ _
    · exact SMap.get?_del_self _ _
    · exact SMap.get?_del_self _ _
  · rw [if_neg h]
    refine ⟨fun hc => absurd hc h, fun _ => rfl, ?_, ?_, ?_⟩
    · exact SMap.get?_set_self _ _ _
    · exact SMap.get?_del_self _ _
    · exact SMap.get?_del_self _ _

/-- Witness for the amended C6 at concrete inputs: an unchanged-size event
on `f1` resets the start time, and the evictions happen. -/
theorem c6_witness :
    (onDidChange "/w1" "f1" (.ok 5) 99 stSized).workspaceStartupTimes.get?
        "/w1" = some 99 ∧
    (onDidChange "/w1" "f1" (.ok 5) 99 stSized).fileSizeCache.get? "f1" =
      some 5 ∧
    (onDidChange "/w1" "f1" (.ok 5) 99 stSized).conversationFileCache.get?
        "f1" = none ∧
    (onDidChange "/w1" "f1" (.ok 5) 99 stSized).conversationCache.get?
        "/w1" = none :=
  ⟨(c6_amended "/w1" "f1" 5 99 stSized).1 (by decide),
    (c6_amended "/w1" "f1" 5 99 stSized).2.2.1,
    (c6_amended "/w1" "f1" 5 99 stSized).2.2.2.1,
    (c6_amended "/w1" "f1" 5 99 stSized).2.2.2.2⟩

theorem scanLines_id (lines : List (Option LogEntry))
    (h : ∀ l ∈ lines, ∀ e, l = some e →
      isSkippedType e = true ∨ e.message = none ∨ e.timestamp = none) :
    ∀ s, scanLines lines s = s := by
  induction lines with
  | nil => intro s; rfl
  | cons l rest ih =>
    intro s
    have hrest := fun l hl => h l (List.mem_cons_of_mem _ hl)
    cases l with
    | none =>
      conv_lhs => unfold scanLines
      exact ih hrest s
    | some e =>
      rcases h (some e) (List.mem_cons_self _ _) e rfl with hskip | hmsg | hts
      · conv_lhs => unfold scanLines
        dsimp only
        rw [if_pos hskip]
        exact ih hrest s
      · conv_lhs => unfold scanLines
        dsimp only
        by_cases hsk : isSkippedType e = true
        · rw [if_pos hsk]; exact ih hrest s
        · rw [if_neg hsk, hmsg]
          cases hts2 : e.timestamp <;> dsimp only <;> exact ih hrest s
      · conv_lhs => unfold scanLines
        dsimp only
        by_cases hsk : isSkippedType e = true
        · rw [if_pos hsk]; exact ih hrest s
        · rw [if_neg hsk, hts]
          cases hm2 : e.message <;> dsimp only <;> exact ih hrest s

/-- C7: the tail scan ignores `file-history-snapshot` and `summary` records,
stops as soon as a strictly older timestamp is met, adopts a strictly newer
timestamp as authoritative and continues, and falls back to the file's
mtime when the tail window holds no timestamped message. -/
theorem c7_tail_scan :
    (∀ (e : LogEntry) (rest : List (Option LogEntry)) (s : ScanState),
      isSkippedType e = true →
      scanLines (some e :: rest) s = scanLines rest s) ∧
    (∀ (e : LogEntry) (rest : List (Option LogEntry)) (s : ScanState)
        (m : ClaudeMessage) (ts : Int),
      isSkippedType e = false → e.message = some m → e.timestamp = some ts →
      s.foundFirstMessage = true → ts < s.lastMessageTimestamp →
      scanLines (some e :: rest) s = s) ∧
    (∀ (e : LogEntry) (rest : List (Option LogEntry)) (s : ScanState)
        (m : ClaudeMessage) (ts : Int),
      isSkippedType e = false → e.message = some m → e.timestamp = some ts →
      s.foundFirstMessage = true → ts > s.lastMessageTimestamp →
      scanLines (some e :: rest) s =
        scanLines rest ⟨some (recordedMessage e m), ts, true⟩) ∧
    (∀ (lines : List (Option LogEntry)) (mtime : Int),
      (∀ l ∈ lines.take 20, ∀ e, l = some e →
        isSkippedType e = true ∨ e.message = none ∨ e.timestamp = none) →
      readTail lines mtime = (none, mtime)) := by
  refine ⟨?_, ?_, ?_, ?_⟩
  · intro e rest s hskip
    conv_lhs => unfold scanLines
    dsimp only
    rw [if_pos hskip]
  · intro e rest s m ts hskip hm ht hf hlt
    conv_lhs => unfold scanLines
    dsimp only
    rw [if_neg (by rw [hskip]; exact Bool.false_ne_true), hm, ht]
    dsimp only
    rw [hf, if_neg (by decide), if_pos hlt]
  · intro e rest s m ts hskip hm ht hf hgt
    conv_lhs => unfold scanLines
    dsimp only
    rw [if_neg (by rw [hskip]; exact Bool.false_ne_true), hm, ht]
    dsimp only
    rw [hf, if_neg (by decide), if_neg (by omega), if_pos hgt]
  · intro lines mtime h
    unfold readTail
    rw [scanLines_id (lines.take 20) h ⟨none, 0, false⟩]
    simp

/-- Witness for C7: the four scan behaviours at concrete records. -/
theorem c7_witness :
    scanLines [some entrySummary] scanMid = scanLines [] scanMid ∧
    scanLines [some entryOld] scanMid = scanMid ∧
    scanLines [some entryNew] scanMid =
      scanLines [] ⟨some (recordedMessage entryNew msgA), 20, true⟩ ∧
    readTail [some entrySummary, none] 7 = (none, 7) :=
  ⟨c7_tail_scan.1 entrySummary [] scanMid (by decide),
    c7_tail_scan.2.1 entryOld [] scanMid msgA 5 (by decide) rfl rfl rfl
      (by decide),
    c7_tail_scan.2.2.1 entryNew [] scanMid msgA 20 (by decide) rfl rfl rfl
      (by decide),
    c7_tail_scan.2.2.2 [some entrySummary, none] 7
      (by
        intro l hl e he
        cases hl with
        | head => cases he; left; decide
        | tail _ hl2 =>
          cases hl2 with
          | head => cases he
          | tail _ hl3 => cases hl3)⟩

/-- C8: `getStatus` recovers from I/O errors — a missing project directory
yields the `NoSession` result, a session file whose read throws is skipped
without affecting the rest of the loop, and an `undefined` result can only
come from the one uncaught (inference) fault inside
`checkForRecentlyFinished`. -/
theorem c8_error_recovery (cfg : Config) (fsys : ProjectDir) (now : Int)
    (ws : String) (st : MonitorState) :
    (fsys.accessible = false →
      st.conversationCache.get? ws = none →
      st.projectDirExistsCache.get? (projectDirFor ws) = none →
      (getStatus cfg fsys now ws st).1 =
        some ⟨ClaudeCodeStatus.NoSession, none, 0⟩) ∧
    (∀ (p : String) (mt : Int) (rest : List (String × Int)) (st2 : MonitorState),
      fsys.read p = .error () →
      st2.conversationFileCache.get? p = none →
      readFilesLoop fsys ((p, mt) :: rest) st2 = readFilesLoop fsys rest st2) ∧
    ((getStatus cfg fsys now ws st).1 = none →
      checkForRecentlyFinished now (statusStartup fsys now ws st)
        (sortConvos (statusConvos fsys now ws st)) = .error ()) := by
  refine ⟨?_, ?_, ?_⟩
  · intro hacc hcc hde
    have h1 : (initStartup now ws st).conversationCache.get? ws = none := by
      rw [initStartup_conversationCache]; exact hcc
    have h2 : (initStartup now ws st).projectDirExistsCache.get?
        (projectDirFor ws) = none := by
      rw [initStartup_projectDirExistsCache]; exact hde
    have hconvs : statusConvos fsys now ws st = [] :=
      getWC_inaccessible fsys now ws _ h1 h2 hacc
    rw [getStatus_fst, hconvs]
    rfl
  · intro p mt rest st2 hrd hc
    exact readFilesLoop_skip_error fsys p mt rest st2 hc hrd
  · intro h
    rw [getStatus_fst] at h
    rcases computeStatus_cases cfg now
        (isClaudeProcessRunning st.claudeProcessCache ws)
        (statusStartup fsys now ws st) (statusConvos fsys now ws st) with
      ⟨_, heq⟩ | ⟨_, t, _, heq⟩ | ⟨_, _, t, _, heq⟩ | ⟨_, _, _, hrf, heq⟩ |
      ⟨_, _, _, t, _, heq⟩ | ⟨_, _, _, _, hrun⟩
    · rw [heq] at h; cases h
    · rw [heq] at h; cases h
    · rw [heq] at h; cases h
    · exact hrf
    · rw [heq] at h; cases h
    · rcases hrun with ⟨_, heq⟩ | ⟨_, heq⟩
      · rw [heq] at h; cases h
      · rw [heq] at h; cases h

/-- Witness for C8: an inaccessible directory yields `NoSession`, a failing
read is skipped, and a concrete `undefined`-free run. -/
theorem c8_witness :
    (getStatus defaultConfig fsysNoDir 5 "/w1" MonitorState.initial).1 =
      some ⟨ClaudeCodeStatus.NoSession, none, 0⟩ ∧
    readFilesLoop fsysAllReadsFail [("f1", 1000000)] MonitorState.initial =
      readFilesLoop fsysAllReadsFail [] MonitorState.initial :=
  ⟨(c8_error_recovery defaultConfig fsysNoDir 5 "/w1" MonitorState.initial).1
      rfl rfl rfl,
    (c8_error_recovery defaultConfig fsysAllReadsFail 5 "/w1"
        MonitorState.initial).2.1 "f1" 1000000 [] MonitorState.initial rfl rfl⟩

/-- Counterexample to C9 as stated: with no intervening file or process
change (identical filesystem, state threaded through), two `getStatus`
calls 40 seconds apart return different results — the first falls in the
30-second executing window, the second does not. -/
theorem c9_counterexample :
    (getStatus defaultConfig fsysPlain 1010000 "/w1" MonitorState.initial).1 =
      some ⟨ClaudeCodeStatus.Executing, some 1000000, 1⟩ ∧
    (getStatus defaultConfig fsysPlain 1050000 "/w1"
        (getStatus defaultConfig fsysPlain 1010000 "/w1"
          MonitorState.initial).2).1 =
      some ⟨ClaudeCodeStatus.NotRunning, none, 1⟩ ∧
    (getStatus defaultConfig fsysPlain 1010000 "/w1" MonitorState.initial).1 ≠
      (getStatus defaultConfig fsysPlain 1050000 "/w1"
        (getStatus defaultConfig fsysPlain 1010000 "/w1"
          MonitorState.initial).2).1 :=
  ⟨by decide, by decide, by decide⟩

/-- C9 (amended): calling `getStatus` twice with no intervening file or
process change and at the same current time returns bit-identical results
(and an unchanged monitor state): the caches populated by the first call
reproduce the first result exactly. -/
theorem c9_idempotent_at_fixed_time (cfg : Config) (fsys : ProjectDir)
    (now : Int) (ws : String) (st : MonitorState) :
    (getStatus cfg fsys now ws (getStatus cfg fsys now ws st).2).1 =
      (getStatus cfg fsys now ws st).1 ∧
    (getStatus cfg fsys now ws (getStatus cfg fsys now ws st).2).2 =
      (getStatus cfg fsys now ws st).2 := by
  have h := getStatus_idem cfg fsys now ws st
  exact ⟨congrArg Prod.fst h, congrArg Prod.snd h⟩

/-- C10: files whose mtime is more than 24 hours old are excluded from the
conversation list, so `conversationCount` counts only files modified within
the last 24 hours, and a workspace all of whose session files are stale is
reported as `NoSession` with `conversationCount` 0. -/
theorem c10_file_age_filter (cfg : Config) (fsys : ProjectDir) (now : Int)
    (ws : String) (st : MonitorState) (files : List (String × Int))
    (hcc : st.conversationCache.get? ws = none)
    (hde : st.projectDirExistsCache.get? (projectDirFor ws) = none)
    (hfl : st.projectFilesCache.get? (projectDirFor ws) = none)
    (hacc : fsys.accessible = true)
    (hlist : fsys.listing = .ok files) :
    ((∀ p, ∃ md, fsys.read p = .ok md) →
      ∀ info, (getStatus cfg fsys now ws st).1 = some info →
        info.conversationCount =
          (files.filter (fun f =>
            decide (f.2 ≥ now - fileAgeThresholdMs))).length) ∧
    ((∀ f ∈ files, f.2 < now - fileAgeThresholdMs) → files ≠ [] →
      (getStatus cfg fsys now ws st).1 =
        some ⟨ClaudeCodeStatus.NoSession, none, 0⟩) := by
  have h1 : (initStartup now ws st).conversationCache.get? ws = none := by
    rw [initStartup_conversationCache]; exact hcc
  have h2 : (initStartup now ws st).projectDirExistsCache.get?
      (projectDirFor ws) = none := by
    rw [initStartup_projectDirExistsCache]; exact hde
  have h3 : (initStartup now ws st).projectFilesCache.get?
      (projectDirFor ws) = none := by
    rw [initStartup_projectFilesCache]; exact hfl
  obtain ⟨st', hfr, _⟩ :=
    getWC_fresh fsys now ws (initStartup now ws st) files h1 h2 hacc h3 hlist
  have hconvs : statusConvos fsys now ws st =
      (readFilesLoop fsys (files.filter (fun f =>
        decide (f.2 ≥ now - fileAgeThresholdMs))) st').1 := by
    unfold statusConvos
    rw [hfr]
    rfl
  constructor
  · intro hread info h
    rw [getStatus_fst] at h
    have hcount := computeStatus_count _ _ _ _ _ _ h
    rw [hcount, hconvs]
    exact readFilesLoop_length fsys _ st'
      (fun q _ => Or.inr (hread q.1))
  · intro hold _
    have hnil : files.filter (fun f =>
        decide (f.2 ≥ now - fileAgeThresholdMs)) = [] := by
      rw [List.filter_eq_nil_iff]
      intro f hf
      have := hold f hf
      simp only [decide_eq_true_eq]
      omega
    have hempty : statusConvos fsys now ws st = [] := by
      rw [hconvs, hnil]
      rfl
    rw [getStatus_fst, hempty]
    rfl

/-- Witness for C10: two files, both stale by more than 24 hours at time
90000000, give `NoSession` with count 0, and the count equals the length of
the filtered (empty) file list. -/
theorem c10_witness :
    (getStatus defaultConfig fsysOldFiles 90000000 "/w1"
        MonitorState.initial).1 =
      some ⟨ClaudeCodeStatus.NoSession, none, 0⟩ ∧
    (ClaudeCodeStatusInfo.mk ClaudeCodeStatus.NoSession none 0).conversationCount =
      ([(("old1" : String), (0 : Int)), ("old2", 10)].filter (fun f =>
        decide (f.2 ≥ 90000000 - fileAgeThresholdMs))).length :=
  ⟨(c10_file_age_filter defaultConfig fsysOldFiles 90000000 "/w1"
      MonitorState.initial [("old1", 0), ("old2", 10)]
      rfl rfl rfl rfl rfl).2 (by decide) (by decide),
    (c10_file_age_filter defaultConfig fsysOldFiles 90000000 "/w1"
      MonitorState.initial [("old1", 0), ("old2", 10)]
      rfl rfl rfl rfl rfl).1 (fun p => ⟨mdPlain, rfl⟩)
      ⟨ClaudeCodeStatus.NoSession, none, 0⟩ (by decide)⟩
